import Mathlib

/-!
Verification of the simulated IEC 61850 substation model of `src/iecApi`
(`model.py`, `client.py`, `demo.py`).

The embedding has two faithful views of the same Python classes:

* a *tree* view (`Tree` namespace) of the static object hierarchy
  `IecServer → LogicalDevice → LogicalNode → DataObject → DataAttribute`,
  used for the construction (`add_ld`/`add_ln`/`add_do`/`add_da`,
  `create_dataset`) and addressing (`get_full_path`,
  `get_attribute_by_path`) operations;

* a *runtime* view (`Rt` namespace) with an explicit store of attributes
  and report control blocks, used for the change-notification dynamics
  (the `value` setter, `ReportControlBlock.on_data_change`, `enable`).
  Sink invocations and subscriber invocations are recorded in an event
  trace; a Python exception raised by a sink is modelled by a Boolean
  "raised" flag that aborts the remaining callbacks, exactly as an
  uncaught exception would in the source.

Python `dict`s are modelled as association lists where insertion replaces
the value at an existing key in place (CPython semantics: insertion order
is kept, assignment to an existing key keeps its position).  Python float
literals of the demo are modelled as rationals; `time.time()` is modelled
by a clock value passed in by the caller.
-/

/-- Runtime values held by a `DataAttribute` (`value: Any` in the source;
the spec restricts to numeric, string and bool). -/
inductive Value where
  | num (q : ℚ)
  | str (s : String)
  | bool (b : Bool)
  deriving DecidableEq, Repr

/-- Python `d[k]` read: first (unique) matching key, `None` if absent. -/
def dictGet {α : Type} : List (String × α) → String → Option α
  | [], _ => none
  | (k1, v1) :: rest, k => if k1 = k then some v1 else dictGet rest k

/-- Python `d[k] = v`: replace the value at an existing key in place,
otherwise append the new pair at the end. -/
def dictInsert {α : Type} : List (String × α) → String → α → List (String × α)
  | [], k, v => [(k, v)]
  | (k1, v1) :: rest, k, v =>
      if k1 = k then (k, v) :: rest else (k1, v1) :: dictInsert rest k v

/-- Python `s.split(sep, 1)` on a list of characters: `none` when the
separator does not occur (in the source the two-element unpacking then
raises `ValueError`), otherwise the parts before and after the first
occurrence. -/
def splitOnceList (sep : Char) : List Char → Option (List Char × List Char)
  | [] => none
  | c :: cs =>
      if c = sep then some ([], cs)
      else (splitOnceList sep cs).map (fun p => (c :: p.1, p.2))

/-- Python `s.split(sep, 1)` on strings, `none` when `sep` is absent. -/
def splitOnce (sep : Char) (s : String) : Option (String × String) :=
  (splitOnceList sep s.data).map (fun p => (⟨p.1⟩, ⟨p.2⟩))

namespace Tree

/-- Model of `DataAttribute.__init__`: name, value, creation timestamp,
quality `"good"`, empty `trigger_callbacks`.  The `parent` back-pointer
is not stored here; `get_full_path` takes the parent's path as an
argument, mirroring the pointer walk of the source.  Callback
registration and firing are modelled in the `Rt` namespace. -/
structure DataAttribute where
  name : String
  value : Value
  timestamp : Nat
  quality : String
  deriving DecidableEq, Repr

/-- Model of `DataAttribute.get_full_path`: `parent.get_full_path() + "." + name`
when a parent is set, else just the name. -/
def DataAttribute.get_full_path (parentPath : Option String) (da : DataAttribute) : String :=
  match parentPath with
  | some p => p ++ "." ++ da.name
  | none => da.name

/-- Model of `DataObject`: name and the `attributes` dict. -/
structure DataObject where
  name : String
  attributes : List (String × DataAttribute)
  deriving DecidableEq, Repr

/-- Model of `DataObject.add_da(name, value)`: creates the attribute (with quality
`"good"` and the current time, here `now`) and stores it under `name`,
returning the updated object together with the new attribute. -/
def DataObject.add_da (dO : DataObject) (name : String) (value : Value) (now : Nat) :
    DataObject × DataAttribute :=
  let da : DataAttribute := ⟨name, value, now, "good"⟩
  ({ dO with attributes := dictInsert dO.attributes name da }, da)

/-- Model of `DataObject.get_full_path`: `parent.get_full_path() + "." + name`
(unconditional in the source). -/
def DataObject.get_full_path (parentPath : String) (dO : DataObject) : String :=
  parentPath ++ "." ++ dO.name

/-- Model of `LogicalNode`: name, the `objects` dict and the `datasets` dict
(report control blocks are modelled in the `Rt` namespace). -/
structure LogicalNode where
  name : String
  objects : List (String × DataObject)
  datasets : List (String × List DataAttribute)
  deriving DecidableEq, Repr

/-- Model of `LogicalNode.add_do(name)`. -/
def LogicalNode.add_do (ln : LogicalNode) (name : String) : LogicalNode × DataObject :=
  let dO : DataObject := ⟨name, []⟩
  ({ ln with objects := dictInsert ln.objects name dO }, dO)

/-- Model of `LogicalNode.create_dataset(name, da_list)`: stores the member list
under `name` unconditionally (`self.datasets[name] = da_list`). -/
def LogicalNode.create_dataset (ln : LogicalNode) (name : String)
    (da_list : List DataAttribute) : LogicalNode :=
  { ln with datasets := dictInsert ln.datasets name da_list }

/-- Model of `LogicalNode.get_full_path`: `parent.get_full_path() + "/" + name`. -/
def LogicalNode.get_full_path (parentPath : String) (ln : LogicalNode) : String :=
  parentPath ++ "/" ++ ln.name

/-- Model of `LogicalDevice`: name and the `nodes` dict. -/
structure LogicalDevice where
  name : String
  nodes : List (String × LogicalNode)
  deriving DecidableEq, Repr

/-- Model of `LogicalDevice.add_ln(name)`. -/
def LogicalDevice.add_ln (ld : LogicalDevice) (name : String) : LogicalDevice × LogicalNode :=
  let ln : LogicalNode := ⟨name, [], []⟩
  ({ ld with nodes := dictInsert ld.nodes name ln }, ln)

/-- Model of `LogicalDevice.get_full_path`: just the device name (the device is
the root of the path). -/
def LogicalDevice.get_full_path (ld : LogicalDevice) : String :=
  ld.name

/-- Model of `IecServer`: name and the `devices` dict. -/
structure IecServer where
  name : String
  devices : List (String × LogicalDevice)
  deriving DecidableEq, Repr

/-- Model of `IecServer.add_ld(name)`. -/
def IecServer.add_ld (srv : IecServer) (name : String) : IecServer × LogicalDevice :=
  let ld : LogicalDevice := ⟨name, []⟩
  ({ srv with devices := dictInsert srv.devices name ld }, ld)

/-- Model of `IecServer.get_attribute_by_path(path)`: split at the first `/`, then
twice at the first `.`, and chain the four dict lookups; any failure
(missing separator or missing key) is caught by the `except` clause and
yields `None`. -/
def IecServer.get_attribute_by_path (srv : IecServer) (path : String) : Option DataAttribute :=
  match splitOnce '/' path with
  | none => none
  | some (ldName, rest) =>
    match splitOnce '.' rest with
    | none => none
    | some (lnName, rest2) =>
      match splitOnce '.' rest2 with
      | none => none
      | some (doName, daName) =>
        match dictGet srv.devices ldName with
        | none => none
        | some ld =>
          match dictGet ld.nodes lnName with
          | none => none
          | some ln =>
            match dictGet ln.objects doName with
            | none => none
            | some dO => dictGet dO.attributes daName

end Tree

namespace Rt

/-- Runtime view of `DataAttribute`.  The `parent` back-pointer is used
by the source only through `get_full_path`, so it is represented by the
parent's full path string.  `trigger_callbacks` holds the indices of the
report control blocks whose bound method `on_data_change` has been
appended (the only callbacks the repository ever registers). -/
structure DataAttribute where
  name : String
  parent : Option String
  value : Value
  timestamp : Nat
  quality : String
  trigger_callbacks : List Nat
  deriving DecidableEq, Repr

/-- Model of `DataAttribute.get_full_path`, runtime view. -/
def DataAttribute.get_full_path (da : DataAttribute) : String :=
  match da.parent with
  | some p => p ++ "." ++ da.name
  | none => da.name

/-- A client sink (`callback` in `ReportControlBlock.enable`): it either
returns normally or raises when invoked.  The arguments it receives are
recorded in the event trace. -/
inductive SinkBehavior where
  | normal
  | raises
  deriving DecidableEq, Repr

/-- Model of `ReportControlBlock`: the dataset is the list of member attribute
indices in the store (with multiplicity and order as given at creation). -/
structure ReportControlBlock where
  name : String
  rpt_id : String
  dataset : List Nat
  enabled : Bool
  client_callback : Option SinkBehavior
  deriving DecidableEq, Repr

/-- The mutable heap of the running system: the attribute objects and the
report control block objects, referenced by index. -/
structure St where
  attrs : List DataAttribute
  rcbs : List ReportControlBlock
  deriving DecidableEq, Repr

/-- Observable events of a run: `trig c i` records that the subscriber
callback of RCB `c` was invoked with (a reference to) attribute `i`;
`sink c rpt data reason` records that RCB `c` invoked its client sink
with those arguments. -/
inductive Event where
  | trig (rcb : Nat) (changed : Nat)
  | sink (rcb : Nat) (rpt_id : String) (data : List (String × Value)) (reason : String)
  deriving DecidableEq, Repr

/-- Model of `da.get_full_path()` of the attribute at index `i` (claims only use
states where `i` is in range). -/
def attrPath (st : St) (i : Nat) : String :=
  match st.attrs[i]? with
  | some a => a.get_full_path
  | none => ""

/-- Model of `da.value` of the attribute at index `i`. -/
def attrVal (st : St) (i : Nat) : Value :=
  match st.attrs[i]? with
  | some a => a.value
  | none => Value.num 0

/-- Model of `{da.get_full_path(): da.value for da in self.dataset}`: the report
payload built by `on_data_change` (keys are distinct in the demo model,
so the dict comprehension is the association list in dataset order). -/
def snapshot (st : St) (ds : List Nat) : List (String × Value) :=
  ds.map (fun aid => (attrPath st aid, attrVal st aid))

/-- Model of `ReportControlBlock.on_data_change(changed_da)` for RCB `c`: always
an invocation of the subscriber (the `trig` event); if the block is
enabled and a sink is registered, the sink is called with
`(rpt_id, snapshot, reason="dchg")`.  The Boolean is `true` when the sink
raises; the source has no `try` here, so the exception escapes. -/
def on_data_change (st : St) (c : Nat) (changed : Nat) : List Event × Bool :=
  match st.rcbs[c]? with
  | none => ([Event.trig c changed], false)
  | some rcb =>
    if rcb.enabled then
      match rcb.client_callback with
      | some b =>
          ([Event.trig c changed,
            Event.sink c rcb.rpt_id (snapshot st rcb.dataset) "dchg"],
           match b with | SinkBehavior.raises => true | SinkBehavior.normal => false)
      | none => ([Event.trig c changed], false)
    else ([Event.trig c changed], false)

/-- The `for callback in self.trigger_callbacks: callback(self)` loop of
the `value` setter: callbacks run in registration order; an uncaught
exception (second component `true`) aborts the remaining iterations. -/
def runCallbacks (st : St) (changed : Nat) : List Nat → List Event × Bool
  | [] => ([], false)
  | c :: rest =>
      let r1 := on_data_change st c changed
      if r1.2 then (r1.1, true)
      else
        let r2 := runCallbacks st changed rest
        (r1.1 ++ r2.1, r2.2)

/-- The `value` property setter: when the new value differs from the
current one (Python `!=`, value equality) it stores the value, refreshes
the timestamp to the current time `now`, and fires the callbacks against
the updated heap; otherwise nothing happens.  Returns the new heap, the
event trace, and whether an exception escaped to the assigning caller. -/
def set_value (st : St) (i : Nat) (v : Value) (now : Nat) : St × List Event × Bool :=
  match st.attrs[i]? with
  | none => (st, [], false)
  | some a =>
      if a.value = v then (st, [], false)
      else
        let a2 := { a with value := v, timestamp := now }
        let st2 : St := { st with attrs := st.attrs.set i a2 }
        let r := runCallbacks st2 i a.trigger_callbacks
        (st2, r.1, r.2)

/-- The heap right after the mutation part of the `value` setter (store
the new value, refresh the timestamp), before the callback loop runs. -/
def write_state (st : St) (i : Nat) (a : DataAttribute) (v : Value) (now : Nat) : St :=
  { st with attrs := st.attrs.set i { a with value := v, timestamp := now } }

/-- A sequence of assignments to the same attribute (each item supplies
the value and the clock reading); an escaped exception aborts the rest. -/
def set_values (st : St) (i : Nat) : List (Value × Nat) → St × List Event × Bool
  | [] => (st, [], false)
  | (v, now) :: rest =>
      let r1 := set_value st i v now
      if r1.2.2 then (r1.1, r1.2.1, true)
      else
        let r2 := set_values r1.1 i rest
        (r2.1, r1.2.1 ++ r2.2.1, r2.2.2)

/-- One step of the subscription loop of `ReportControlBlock.__init__`
(`da.trigger_callbacks.append(self.on_data_change)` for the dataset
member `aid`): the block index `r` is appended to that attribute's
callback list. -/
def registerOne (r : Nat) (as : List DataAttribute) (aid : Nat) : List DataAttribute :=
  match as[aid]? with
  | some a => as.set aid { a with trigger_callbacks := a.trigger_callbacks ++ [r] }
  | none => as

/-- Model of `LogicalNode.create_report` / `ReportControlBlock.__init__`: the new
block (disabled, no sink) is appended to the store, and its index is
appended to `trigger_callbacks` of every dataset member, once per
occurrence in the dataset list. -/
def create_report (st : St) (name rpt_id : String) (dataset : List Nat) : St :=
  let r := st.rcbs.length
  { attrs := dataset.foldl (registerOne r) st.attrs,
    rcbs := st.rcbs ++ [⟨name, rpt_id, dataset, false, none⟩] }

/-- Model of `ReportControlBlock.enable(callback)`: registers the sink and sets
`enabled = True`. -/
def enable (st : St) (r : Nat) (sink : SinkBehavior) : St :=
  match st.rcbs[r]? with
  | none => st
  | some rcb =>
      { st with rcbs := st.rcbs.set r { rcb with client_callback := some sink, enabled := true } }

/-- Modelled from the spec: `model.py` defines no `disable()` method on
`ReportControlBlock`; per the spec's state machine, `disable()` sets
`enabled = false` and leaves the sink reference and the subscriptions in
place (the `enabled` flag is the public field consulted by
`on_data_change`). -/
def disable (st : St) (r : Nat) : St :=
  match st.rcbs[r]? with
  | none => st
  | some rcb => { st with rcbs := st.rcbs.set r { rcb with enabled := false } }

/-- The sink invocations performed by RCB `r` within a trace. -/
def Event.isSinkOf (r : Nat) : Event → Bool
  | Event.sink c _ _ _ => c == r
  | _ => false

/-- Filter a trace down to the sink calls made by RCB `r`. -/
def sinkCallsOf (r : Nat) (es : List Event) : List Event :=
  es.filter (Event.isSinkOf r)

/-- Project an event to a subscriber invocation `(rcb, changed)`. -/
def Event.trigOf : Event → Option (Nat × Nat)
  | Event.trig c ch => some (c, ch)
  | _ => none

/-- The subscriber invocations of a trace, in order. -/
def trigs (es : List Event) : List (Nat × Nat) :=
  es.filterMap Event.trigOf

end Rt

/-! ## The demo model of `demo.py` (`build_mock_server`) -/

/-- The rational `219.5` (as an explicit normalized fraction, so that
kernel evaluation does not depend on the irreducible `Rat` arithmetic). -/
def q219_5 : ℚ := ⟨439, 2, by decide, by decide⟩

/-- The rational `225.5` (as an explicit normalized fraction). -/
def q225_5 : ℚ := ⟨451, 2, by decide, by decide⟩

/-- The attribute `phsA.cVal.mag.f = 220.0` of the demo. -/
def demoDaA : Tree.DataAttribute := ⟨"phsA.cVal.mag.f", Value.num 220, 0, "good"⟩

/-- The attribute `phsB.cVal.mag.f = 219.5` of the demo. -/
def demoDaB : Tree.DataAttribute := ⟨"phsB.cVal.mag.f", Value.num q219_5, 0, "good"⟩

/-- The data object `PhV` of the demo. -/
def demoPhV : Tree.DataObject :=
  ⟨"PhV", [("phsA.cVal.mag.f", demoDaA), ("phsB.cVal.mag.f", demoDaB)]⟩

/-- The logical node `MMXU1` of the demo, with the dataset
`dsMeas = [phsA, phsB]`. -/
def demoMMXU1 : Tree.LogicalNode :=
  ⟨"MMXU1", [("PhV", demoPhV)], [("dsMeas", [demoDaA, demoDaB])]⟩

/-- The logical device `Protection` of the demo. -/
def demoProtection : Tree.LogicalDevice := ⟨"Protection", [("MMXU1", demoMMXU1)]⟩

/-- Model of `build_mock_server` of `demo.py`: the state of the server object
after the construction chain (the dynamic report control block part is
`demoSt` below). -/
def build_mock_server : Tree.IecServer :=
  ⟨"MySubstation_IED_001", [("Protection", demoProtection)]⟩

/-- The full path of the demo's `PhV` data object, computed by the
parent-pointer walk. -/
def demoPhVPath : String :=
  demoPhV.get_full_path (demoMMXU1.get_full_path demoProtection.get_full_path)

/-- Runtime view of the demo's `phsA` attribute (index 0). -/
def rtDemoA : Rt.DataAttribute :=
  ⟨"phsA.cVal.mag.f", some demoPhVPath, Value.num 220, 0, "good", []⟩

/-- Runtime view of the demo's `phsB` attribute (index 1). -/
def rtDemoB : Rt.DataAttribute :=
  ⟨"phsB.cVal.mag.f", some demoPhVPath, Value.num q219_5, 0, "good", []⟩

/-- The demo heap after `create_report("urcb01", "dsMeas",
"MyIED/Protection/MMXU1$RP$urcb01")`: one RCB (index 0), disabled, bound
to dataset `[phsA, phsB]`, subscribed to both members. -/
def demoSt : Rt.St :=
  Rt.create_report ⟨[rtDemoA, rtDemoB], []⟩ "urcb01" "MyIED/Protection/MMXU1$RP$urcb01" [0, 1]

/-! ## Concrete states used by counterexamples and witnesses -/

/-- An attribute named `f`, as created by `add_da("f", 1)`. -/
def cexDa : Tree.DataAttribute := ⟨"f", Value.num 1, 0, "good"⟩

/-- A data object whose name `A.B` contains a dot, as created by
`add_do("A.B")` followed by `add_da("f", 1)`. -/
def cexDO : Tree.DataObject := ⟨"A.B", [("f", cexDa)]⟩

/-- The logical node holding `cexDO`, as created by `add_ln`/`add_do`. -/
def cexLN : Tree.LogicalNode := ⟨"LN", [("A.B", cexDO)], []⟩

/-- The logical device holding `cexLN`. -/
def cexLD : Tree.LogicalDevice := ⟨"LD", [("LN", cexLN)]⟩

/-- A server built through the `add_ld`/`add_ln`/`add_do`/`add_da` chain
whose data object name contains a dot. -/
def cexServer : Tree.IecServer := ⟨"S", [("LD", cexLD)]⟩

/-- A server with no logical devices at all. -/
def emptyServer : Tree.IecServer := ⟨"S", []⟩

/-- A data object that already has a child named `x` (value `1`,
created at time `0`). -/
def c8DO : Tree.DataObject := ⟨"D", [("x", ⟨"x", Value.num 1, 0, "good"⟩)]⟩

/-- A bare logical node (no objects, no datasets). -/
def c9LN : Tree.LogicalNode := ⟨"LN", [], []⟩

/-- A single attribute watched by two report control blocks: RCB 0 whose
sink raises when called, then RCB 1 with a well-behaved sink; both
enabled.  Used to exercise a failing subscriber. -/
def c5St : Rt.St :=
  { attrs := [⟨"a", none, Value.num 0, 0, "good", [0, 1]⟩],
    rcbs := [⟨"rcb0", "rpt0", [0], true, some Rt.SinkBehavior.raises⟩,
             ⟨"rcb1", "rpt1", [0], true, some Rt.SinkBehavior.normal⟩] }

/-- A heap with one attribute and no report control blocks, used to
build an RCB whose dataset mentions the attribute twice. -/
def c10St : Rt.St := { attrs := [⟨"a", none, Value.num 0, 0, "good", []⟩], rcbs := [] }

/-! ## Helper lemmas -/

/-- Looking up a key right after inserting it returns the inserted value
(Python `d[k] = v; d[k] == v`), whether or not the key was present. -/
theorem dictGet_dictInsert_self {α : Type} (d : List (String × α)) (k : String) (v : α) :
    dictGet (dictInsert d k v) k = some v := by
  induction d with
  | nil => simp [dictGet, dictInsert]
  | cons p rest ih =>
      obtain ⟨k1, v1⟩ := p
      by_cases h : k1 = k
      · simp [dictGet, dictInsert, h]
      · simp [dictGet, dictInsert, h, ih]

/-- Splitting at the first separator occurrence, list form: the
characters before the separator and those after it. -/
theorem splitOnceList_append (sep : Char) (l1 l2 : List Char) (h : sep ∉ l1) :
    splitOnceList sep (l1 ++ sep :: l2) = some (l1, l2) := by
  induction l1 with
  | nil => simp [splitOnceList]
  | cons c cs ih =>
      have hc : ¬(c = sep) := by
        intro e
        exact h (by simp [e])
      have hcs : sep ∉ cs := fun m => h (List.mem_cons_of_mem _ m)
      simp [splitOnceList, hc, ih hcs]

/-- Splitting a string assembled as `before ++ sep ++ after` finds the
first separator, provided `before` avoids it. -/
theorem splitOnce_mk (sep : Char) (l1 l2 : List Char) (h : sep ∉ l1) :
    splitOnce sep ⟨l1 ++ sep :: l2⟩ = some (⟨l1⟩, ⟨l2⟩) := by
  simp [splitOnce, splitOnceList_append sep l1 l2 h]

/-- The subscriber invocations of one `on_data_change` call: exactly one,
by the block `c` with the changed attribute `ch`. -/
theorem on_data_change_trigs (st : Rt.St) (c ch : Nat) :
    Rt.trigs (Rt.on_data_change st c ch).1 = [(c, ch)] := by
  unfold Rt.on_data_change
  cases h : st.rcbs[c]? with
  | none => simp [Rt.trigs, Rt.Event.trigOf]
  | some rcb =>
      by_cases he : rcb.enabled = true
      · cases hc : rcb.client_callback with
        | none => simp [he, hc, Rt.trigs, Rt.Event.trigOf]
        | some b => simp [he, hc, Rt.trigs, Rt.Event.trigOf]
      · simp [he, Rt.trigs, Rt.Event.trigOf]

/-- Lemma: `on_data_change` cannot raise when no registered sink in the heap is
a raising one (the only exception source is the sink call). -/
theorem on_data_change_no_raise (st : Rt.St) (c ch : Nat)
    (h : ∀ x ∈ st.rcbs, x.client_callback ≠ some Rt.SinkBehavior.raises) :
    (Rt.on_data_change st c ch).2 = false := by
  unfold Rt.on_data_change
  cases hg : st.rcbs[c]? with
  | none => simp
  | some rcb =>
      have hm : rcb ∈ st.rcbs := List.getElem?_mem hg
      by_cases he : rcb.enabled = true
      · cases hc : rcb.client_callback with
        | none => simp [he, hc]
        | some b =>
            cases b with
            | normal => simp [he, hc]
            | raises => exact absurd hc (h rcb hm)
      · simp [he]

/-- A disabled block never raises from `on_data_change`. -/
theorem on_data_change_no_raise_of_disabled (st : Rt.St) (c ch : Nat)
    (rcb : Rt.ReportControlBlock) (h : st.rcbs[c]? = some rcb) (he : rcb.enabled = false) :
    (Rt.on_data_change st c ch).2 = false := by
  unfold Rt.on_data_change
  rw [h]
  simp [he]

/-- Filtering a trace for the sink calls of `r` distributes over
concatenation. -/
theorem sinkCallsOf_append (r : Nat) (l1 l2 : List Rt.Event) :
    Rt.sinkCallsOf r (l1 ++ l2) = Rt.sinkCallsOf r l1 ++ Rt.sinkCallsOf r l2 :=
  List.filter_append l1 l2

/-- A callback of a block other than `r` contributes no sink call of
`r`. -/
theorem sinkCallsOf_on_data_change_ne (st : Rt.St) (c ch r : Nat) (hne : c ≠ r) :
    Rt.sinkCallsOf r (Rt.on_data_change st c ch).1 = [] := by
  unfold Rt.on_data_change
  cases h : st.rcbs[c]? with
  | none => simp [Rt.sinkCallsOf, Rt.Event.isSinkOf]
  | some rcb =>
      by_cases he : rcb.enabled = true
      · cases hc : rcb.client_callback with
        | none => simp [he, hc, Rt.sinkCallsOf, Rt.Event.isSinkOf]
        | some b => simp [he, hc, Rt.sinkCallsOf, Rt.Event.isSinkOf, hne]
      · simp [he, Rt.sinkCallsOf, Rt.Event.isSinkOf]

/-- An enabled block `r` with a registered sink makes exactly one sink
call from `on_data_change`, carrying its report id, the dataset
snapshot, and `"dchg"`. -/
theorem sinkCallsOf_on_data_change_self (st : Rt.St) (r ch : Nat)
    (rcb : Rt.ReportControlBlock) (h : st.rcbs[r]? = some rcb)
    (he : rcb.enabled = true) (b : Rt.SinkBehavior) (hc : rcb.client_callback = some b) :
    Rt.sinkCallsOf r (Rt.on_data_change st r ch).1
      = [Rt.Event.sink r rcb.rpt_id (Rt.snapshot st rcb.dataset) "dchg"] := by
  unfold Rt.on_data_change
  rw [h]
  simp [he, hc, Rt.sinkCallsOf, Rt.Event.isSinkOf]

/-- A disabled block `r` makes no sink call from `on_data_change`. -/
theorem sinkCallsOf_on_data_change_disabled (st : Rt.St) (r ch : Nat)
    (rcb : Rt.ReportControlBlock) (h : st.rcbs[r]? = some rcb) (he : rcb.enabled = false) :
    Rt.sinkCallsOf r (Rt.on_data_change st r ch).1 = [] := by
  unfold Rt.on_data_change
  rw [h]
  simp [he, Rt.sinkCallsOf, Rt.Event.isSinkOf]

/-- While block `r` is disabled, a whole callback cascade makes no sink
call of `r`, whatever the other blocks do (even if one of them raises
mid-loop). -/
theorem sinkCallsOf_runCallbacks_disabled (st : Rt.St) (ch r : Nat)
    (rcb : Rt.ReportControlBlock) (h : st.rcbs[r]? = some rcb) (he : rcb.enabled = false) :
    ∀ cbs, Rt.sinkCallsOf r (Rt.runCallbacks st ch cbs).1 = [] := by
  intro cbs
  induction cbs with
  | nil => simp [Rt.runCallbacks, Rt.sinkCallsOf]
  | cons c rest ih =>
      have hc0 : Rt.sinkCallsOf r (Rt.on_data_change st c ch).1 = [] := by
        rcases eq_or_ne c r with rfl | hne
        · exact sinkCallsOf_on_data_change_disabled st c ch rcb h he
        · exact sinkCallsOf_on_data_change_ne st c ch r hne
      by_cases hr : (Rt.on_data_change st c ch).2 = true
      · simp [Rt.runCallbacks, hr, hc0]
      · simp [Rt.runCallbacks, hr, sinkCallsOf_append, hc0, ih]

/-- When no callback in the list raises and block `r` is enabled with a
sink, the cascade delivers one identical full-snapshot report per
occurrence of `r` in the callback list. -/
theorem sinkCallsOf_runCallbacks_count (st : Rt.St) (ch r : Nat)
    (rcb : Rt.ReportControlBlock) (h : st.rcbs[r]? = some rcb)
    (he : rcb.enabled = true) (b : Rt.SinkBehavior) (hc : rcb.client_callback = some b) :
    ∀ cbs, (∀ c ∈ cbs, (Rt.on_data_change st c ch).2 = false) →
      Rt.sinkCallsOf r (Rt.runCallbacks st ch cbs).1
        = List.replicate (cbs.count r)
            (Rt.Event.sink r rcb.rpt_id (Rt.snapshot st rcb.dataset) "dchg") := by
  intro cbs
  induction cbs with
  | nil => intro _; simp [Rt.runCallbacks, Rt.sinkCallsOf]
  | cons c rest ih =>
      intro hnr
      have h1 : ¬((Rt.on_data_change st c ch).2 = true) := by
        simp [hnr c (List.mem_cons_self c rest)]
      have hrest := ih (fun d hd => hnr d (List.mem_cons_of_mem _ hd))
      rcases eq_or_ne c r with rfl | hne
      · simp [Rt.runCallbacks, h1, sinkCallsOf_append, hrest,
          sinkCallsOf_on_data_change_self st c ch rcb h he b hc,
          List.count_cons_self, List.replicate_succ]
      · simp [Rt.runCallbacks, h1, sinkCallsOf_append, hrest,
          sinkCallsOf_on_data_change_ne st c ch r hne,
          List.count_cons_of_ne (Ne.symm hne)]

/-- Lemma: `trigs` distributes over trace concatenation. -/
theorem trigs_append (l1 l2 : List Rt.Event) :
    Rt.trigs (l1 ++ l2) = Rt.trigs l1 ++ Rt.trigs l2 :=
  List.filterMap_append l1 l2 _

/-- When no callback raises, the cascade invokes every registered
subscriber exactly once, in registration order, with the changed
attribute, and no exception escapes. -/
theorem trigs_runCallbacks (st : Rt.St) (ch : Nat) :
    ∀ cbs, (∀ c ∈ cbs, (Rt.on_data_change st c ch).2 = false) →
      Rt.trigs (Rt.runCallbacks st ch cbs).1 = cbs.map (fun c => (c, ch))
      ∧ (Rt.runCallbacks st ch cbs).2 = false := by
  intro cbs
  induction cbs with
  | nil => intro _; simp [Rt.runCallbacks, Rt.trigs]
  | cons c rest ih =>
      intro hnr
      have h1 : ¬((Rt.on_data_change st c ch).2 = true) := by
        simp [hnr c (List.mem_cons_self c rest)]
      have hrest := ih (fun d hd => hnr d (List.mem_cons_of_mem _ hd))
      constructor
      · simp [Rt.runCallbacks, h1, trigs_append, hrest.1, on_data_change_trigs]
      · simp [Rt.runCallbacks, h1, hrest.2]

/-- A raising callback after a clean prefix: the cascade stops right
after it, keeping the prefix events and the raiser's events, and the
exception escapes. -/
theorem runCallbacks_append_raise (st : Rt.St) (ch : Nat) (pre : List Nat) (c : Nat)
    (post : List Nat)
    (hpre : ∀ d ∈ pre, (Rt.on_data_change st d ch).2 = false)
    (hc : (Rt.on_data_change st c ch).2 = true) :
    Rt.runCallbacks st ch (pre ++ c :: post)
      = ((Rt.runCallbacks st ch pre).1 ++ (Rt.on_data_change st c ch).1, true) := by
  induction pre with
  | nil => simp [Rt.runCallbacks, hc]
  | cons d rest ih =>
      have h1 : ¬((Rt.on_data_change st d ch).2 = true) := by
        simp [hpre d (List.mem_cons_self d rest)]
      have hrest := ih (fun e he => hpre e (List.mem_cons_of_mem _ he))
      simp [Rt.runCallbacks, h1, hrest, List.append_assoc]

/-- The explicit fraction `q219_5` is the decimal `219.5`. -/
theorem q219_5_eq : q219_5 = 219.5 := by
  rw [q219_5, Rat.mk'_eq_divInt, Rat.divInt_eq_div]; norm_num

/-- The explicit fraction `q225_5` is the decimal `225.5`. -/
theorem q225_5_eq : q225_5 = 225.5 := by
  rw [q225_5, Rat.mk'_eq_divInt, Rat.divInt_eq_div]; norm_num

/-! ## Claims -/

/-- Claim C2: assigning a value that is value-equal to the current value
of a data attribute leaves the stored value, timestamp and quality
unchanged and fires no subscriber, and this holds for whole sequences of
such writes (the heap is returned unchanged and the event trace is
empty). -/
theorem C2_noop_writes (st : Rt.St) (i : Nat) (a : Rt.DataAttribute)
    (writes : List (Value × Nat))
    (ha : st.attrs[i]? = some a)
    (hw : ∀ w ∈ writes, Prod.fst w = a.value) :
    Rt.set_values st i writes = (st, [], false) := by
  induction writes with
  | nil => simp [Rt.set_values]
  | cons w rest ih =>
      obtain ⟨v, now⟩ := w
      have hv : v = a.value := hw (v, now) (by simp)
      have h1 : Rt.set_value st i v now = (st, [], false) := by
        simp [Rt.set_value, ha, hv]
      simp [Rt.set_values, h1, ih (fun w hwmem => hw w (List.mem_cons_of_mem _ hwmem))]

/-- Witness for C2: two writes of the current value `220.0` to the
demo's `phsA` leave the demo heap untouched and fire nothing. -/
theorem C2_noop_writes_witness :
    Rt.set_values demoSt 0 [(Value.num 220, 5), (Value.num 220, 9)] = (demoSt, [], false) :=
  C2_noop_writes demoSt 0 ⟨"phsA.cVal.mag.f", some demoPhVPath, Value.num 220, 0, "good", [0]⟩
    [(Value.num 220, 5), (Value.num 220, 9)] (by decide) (by decide)

/-- Claim C1 counterexample: in the section-8 scenario the sink is
invoked exactly once with the expected report id and data, but the
reason argument is the string `"dchg"`, not `"data-change"` as the claim
states. -/
theorem C1_cex :
    Rt.sinkCallsOf 0
        (Rt.set_value (Rt.enable demoSt 0 Rt.SinkBehavior.normal) 0 (Value.num q225_5) 1).2.1 =
      [Rt.Event.sink 0 "MyIED/Protection/MMXU1$RP$urcb01"
        [("Protection/MMXU1.PhV.phsA.cVal.mag.f", Value.num q225_5),
         ("Protection/MMXU1.PhV.phsB.cVal.mag.f", Value.num q219_5)] "dchg"]
    ∧ q225_5 = 225.5 ∧ q219_5 = 219.5
    ∧ "dchg" ≠ "data-change" :=
  ⟨by decide, q225_5_eq, q219_5_eq, by decide⟩

/-- Claim C1 amended: after enabling `urcb01` with a sink and writing
`225.5` to `phsA`, the run consists of exactly one subscriber invocation
and exactly one sink call, carrying the report id the RCB was created
with, the current values of both dataset members keyed by full path, and
the reason string `"dchg"`; no exception escapes. -/
theorem C1_scenario :
    (Rt.set_value (Rt.enable demoSt 0 Rt.SinkBehavior.normal) 0 (Value.num q225_5) 1).2.1 =
      [Rt.Event.trig 0 0,
       Rt.Event.sink 0 "MyIED/Protection/MMXU1$RP$urcb01"
         [("Protection/MMXU1.PhV.phsA.cVal.mag.f", Value.num q225_5),
          ("Protection/MMXU1.PhV.phsB.cVal.mag.f", Value.num q219_5)] "dchg"]
    ∧ (Rt.set_value (Rt.enable demoSt 0 Rt.SinkBehavior.normal) 0 (Value.num q225_5) 1).2.2
        = false
    ∧ q225_5 = 225.5 ∧ q219_5 = 219.5 :=
  ⟨by decide, by decide, q225_5_eq, q219_5_eq⟩

/-- Claim C3 counterexample: an attribute created through the building
chain under a data object named `A.B` (a legal argument to `add_do`) has
full path `LD/LN.A.B.f`, yet resolving that very path returns `None`:
the parser cuts the object segment at the first dot, so the round trip
fails. -/
theorem C3_cex :
    cexDa.get_full_path
        (some (cexDO.get_full_path (cexLN.get_full_path cexLD.get_full_path))) = "LD/LN.A.B.f"
    ∧ dictGet cexLN.objects "A.B" = some cexDO
    ∧ dictGet cexDO.attributes "f" = some cexDa
    ∧ cexServer.get_attribute_by_path "LD/LN.A.B.f" = none := by decide

/-- Claim C4 counterexample: the lookup of a path whose logical device
is missing returns the bare `None` — the same result for two different
missing first segments — rather than raising a `PathNotFoundError`
identifying the missing segment (no such error type exists in the
code; the caught exception is only printed). -/
theorem C4_cex :
    emptyServer.get_attribute_by_path "Protection/MMXU1.PhV.phsA.cVal.mag.f" = none
    ∧ emptyServer.get_attribute_by_path "Zzz/MMXU1.PhV.phsA.cVal.mag.f" = none := by decide

/-- Claim C8 counterexample: `add_da` with a name that already exists
does not fail and does not leave the existing child unchanged — the old
child (`value 1`, time `0`) is replaced by the newly created one
(`value 2`, time `7`). -/
theorem C8_cex :
    (c8DO.add_da "x" (Value.num 2) 7).1.attributes = [("x", ⟨"x", Value.num 2, 7, "good"⟩)]
    ∧ dictGet c8DO.attributes "x" = some ⟨"x", Value.num 1, 0, "good"⟩
    ∧ (⟨"x", Value.num 2, 7, "good"⟩ : Tree.DataAttribute) ≠ ⟨"x", Value.num 1, 0, "good"⟩ := by
  decide

/-- Claim C8 amended: at every container level, adding a child under a
name — present already or not — succeeds and stores the newly created
child at that name (Python dict assignment replaces in place; no
`DuplicateNameError` exists in the code). -/
theorem C8_overwrite (srv : Tree.IecServer) (ld : Tree.LogicalDevice)
    (ln : Tree.LogicalNode) (dO : Tree.DataObject) (nm : String) (v : Value) (now : Nat) :
    dictGet (srv.add_ld nm).1.devices nm = some (srv.add_ld nm).2
    ∧ dictGet (ld.add_ln nm).1.nodes nm = some (ld.add_ln nm).2
    ∧ dictGet (ln.add_do nm).1.objects nm = some (ln.add_do nm).2
    ∧ dictGet (dO.add_da nm v now).1.attributes nm = some (dO.add_da nm v now).2 := by
  refine ⟨?_, ?_, ?_, ?_⟩ <;>
    simp [Tree.IecServer.add_ld, Tree.LogicalDevice.add_ln, Tree.LogicalNode.add_do,
      Tree.DataObject.add_da, dictGet_dictInsert_self]

/-- Claim C9 counterexample: `create_dataset` with an empty member list
does not fail — it registers the empty dataset on the node (there is no
`EmptyDatasetError` in the code). -/
theorem C9_cex :
    (c9LN.create_dataset "d" []).datasets = [("d", [])] := by decide

/-- Claim C9 amended: `create_dataset` accepts any member list,
including the empty one, and registers it under the given name
unconditionally. -/
theorem C9_empty_dataset (ln : Tree.LogicalNode) (nm : String) (das : List Tree.DataAttribute) :
    dictGet (ln.create_dataset nm das).datasets nm = some das := by
  simp [Tree.LogicalNode.create_dataset, dictGet_dictInsert_self]

/-- Claim C5 counterexample: with two subscribers registered on one
attribute — RCB 0 whose sink raises, then RCB 1 — a value change
invokes only subscriber 0, the exception escapes to the caller of the
assignment (nothing catches it), and subscriber 1 is never invoked;
the blocks stay as they were (still enabled). -/
theorem C5_cex :
    (Rt.set_value c5St 0 (Value.num 1) 5).2.2 = true
    ∧ Rt.trigs (Rt.set_value c5St 0 (Value.num 1) 5).2.1 = [(0, 0)]
    ∧ (Rt.set_value c5St 0 (Value.num 1) 5).1.rcbs = c5St.rcbs := by decide

/-- Claim C7: assigning a value different from the current one stores
the new value, refreshes the timestamp to the current time, leaves the
quality field reading `"good"`, and synchronously invokes every
registered subscriber — in registration order, with a reference to the
changed attribute — with no exception escaping (given that no registered
sink raises). -/
theorem C7_change_notify (st : Rt.St) (i : Nat) (a : Rt.DataAttribute) (v : Value) (now : Nat)
    (ha : st.attrs[i]? = some a) (hv : ¬(a.value = v)) (hq : a.quality = "good")
    (hnr : ∀ x ∈ st.rcbs, x.client_callback ≠ some Rt.SinkBehavior.raises) :
    (Rt.set_value st i v now).1.attrs[i]? = some { a with value := v, timestamp := now }
    ∧ ({ a with value := v, timestamp := now } : Rt.DataAttribute).value = v
    ∧ ({ a with value := v, timestamp := now } : Rt.DataAttribute).timestamp = now
    ∧ ({ a with value := v, timestamp := now } : Rt.DataAttribute).quality = "good"
    ∧ Rt.trigs (Rt.set_value st i v now).2.1 = a.trigger_callbacks.map (fun c => (c, i))
    ∧ (Rt.set_value st i v now).2.2 = false := by
  have hlen : i < st.attrs.length := (List.getElem?_eq_some.mp ha).1
  have hsv : Rt.set_value st i v now =
      (Rt.write_state st i a v now,
       (Rt.runCallbacks (Rt.write_state st i a v now) i a.trigger_callbacks).1,
       (Rt.runCallbacks (Rt.write_state st i a v now) i a.trigger_callbacks).2) := by
    simp [Rt.set_value, ha, hv, Rt.write_state]
  have hnr2 : ∀ c ∈ a.trigger_callbacks,
      (Rt.on_data_change (Rt.write_state st i a v now) c i).2 = false :=
    fun c _ => on_data_change_no_raise _ c i (fun x hx => hnr x hx)
  obtain ⟨htr, hraise⟩ := trigs_runCallbacks (Rt.write_state st i a v now) i
    a.trigger_callbacks hnr2
  rw [hsv]
  exact ⟨List.getElem?_set_self hlen, rfl, rfl, hq, htr, hraise⟩

/-- Witness for C7: in the enabled demo state, writing `225.5` to
`phsA` updates value and timestamp, keeps quality `"good"`, and fires
the single registered subscriber once. -/
theorem C7_change_notify_witness :
    (Rt.set_value (Rt.enable demoSt 0 Rt.SinkBehavior.normal) 0 (Value.num q225_5) 7).1.attrs[0]?
        = some { (⟨"phsA.cVal.mag.f", some demoPhVPath, Value.num 220, 0, "good", [0]⟩ :
                  Rt.DataAttribute) with value := Value.num q225_5, timestamp := 7 }
    ∧ ({ (⟨"phsA.cVal.mag.f", some demoPhVPath, Value.num 220, 0, "good", [0]⟩ :
          Rt.DataAttribute) with value := Value.num q225_5, timestamp := 7 }).value
        = Value.num q225_5
    ∧ ({ (⟨"phsA.cVal.mag.f", some demoPhVPath, Value.num 220, 0, "good", [0]⟩ :
          Rt.DataAttribute) with value := Value.num q225_5, timestamp := 7 }).timestamp = 7
    ∧ ({ (⟨"phsA.cVal.mag.f", some demoPhVPath, Value.num 220, 0, "good", [0]⟩ :
          Rt.DataAttribute) with value := Value.num q225_5, timestamp := 7 }).quality = "good"
    ∧ Rt.trigs (Rt.set_value (Rt.enable demoSt 0 Rt.SinkBehavior.normal) 0
          (Value.num q225_5) 7).2.1
        = ([0] : List Nat).map (fun c => (c, 0))
    ∧ (Rt.set_value (Rt.enable demoSt 0 Rt.SinkBehavior.normal) 0 (Value.num q225_5) 7).2.2
        = false :=
  C7_change_notify (Rt.enable demoSt 0 Rt.SinkBehavior.normal) 0
    ⟨"phsA.cVal.mag.f", some demoPhVPath, Value.num 220, 0, "good", [0]⟩
    (Value.num q225_5) 7 (by decide) (by decide) (by decide) (by decide)

/-- Claim C5 amended: when a subscriber raises during a value change
(after a prefix of well-behaved subscribers), the exception escapes to
the caller of the assignment, the subscribers registered after the
raising one are never invoked, and the report control block store —
including every `enabled` flag — is left as it was (nothing catches the
failure at the RCB boundary). -/
theorem C5_propagation (st : Rt.St) (i : Nat) (a : Rt.DataAttribute) (v : Value) (now : Nat)
    (pre post : List Nat) (c : Nat)
    (ha : st.attrs[i]? = some a) (hv : ¬(a.value = v))
    (hcb : a.trigger_callbacks = pre ++ c :: post)
    (hpre : ∀ d ∈ pre, (Rt.on_data_change (Rt.write_state st i a v now) d i).2 = false)
    (hc : (Rt.on_data_change (Rt.write_state st i a v now) c i).2 = true) :
    (Rt.set_value st i v now).2.2 = true
    ∧ Rt.trigs (Rt.set_value st i v now).2.1 = (pre ++ [c]).map (fun d => (d, i))
    ∧ (Rt.set_value st i v now).1.rcbs = st.rcbs := by
  have hsv : Rt.set_value st i v now =
      (Rt.write_state st i a v now,
       (Rt.runCallbacks (Rt.write_state st i a v now) i a.trigger_callbacks).1,
       (Rt.runCallbacks (Rt.write_state st i a v now) i a.trigger_callbacks).2) := by
    simp [Rt.set_value, ha, hv, Rt.write_state]
  rw [hsv, hcb, runCallbacks_append_raise _ _ pre c post hpre hc]
  refine ⟨rfl, ?_, rfl⟩
  rw [trigs_append, (trigs_runCallbacks _ _ pre hpre).1, on_data_change_trigs]
  simp

/-- Witness for C5's amended statement, on the two-subscriber state with
the raising sink first: the exception escapes, only subscriber 0 runs,
the blocks are untouched. -/
theorem C5_propagation_witness :
    (Rt.set_value c5St 0 (Value.num 1) 5).2.2 = true
    ∧ Rt.trigs (Rt.set_value c5St 0 (Value.num 1) 5).2.1
        = (([] : List Nat) ++ [0]).map (fun d => (d, 0))
    ∧ (Rt.set_value c5St 0 (Value.num 1) 5).1.rcbs = c5St.rcbs :=
  C5_propagation c5St 0 ⟨"a", none, Value.num 0, 0, "good", [0, 1]⟩ (Value.num 1) 5 [] [1] 0
    (by decide) (by decide) (by decide) (by simp) (by decide)

/-- Claim C3 amended: for every attribute reachable through the current
dictionary entries of its ancestors (i.e. not shadowed by a later add
under the same name), resolving its full path returns the attribute
itself, provided the logical device name contains no `/` and the logical
node and data object names contain no `.` — path format
`LogicalDevice/LogicalNode.DataObject.DataAttribute`, where only the
attribute segment may contain further dots. -/
theorem C3_roundtrip (srv : Tree.IecServer) (ld : Tree.LogicalDevice)
    (ln : Tree.LogicalNode) (dO : Tree.DataObject) (da : Tree.DataAttribute)
    (hld : dictGet srv.devices ld.name = some ld)
    (hln : dictGet ld.nodes ln.name = some ln)
    (hdo : dictGet ln.objects dO.name = some dO)
    (hda : dictGet dO.attributes da.name = some da)
    (h1 : ('/' : Char) ∉ ld.name.data)
    (h2 : ('.' : Char) ∉ ln.name.data)
    (h3 : ('.' : Char) ∉ dO.name.data) :
    srv.get_attribute_by_path
      (da.get_full_path (some (dO.get_full_path (ln.get_full_path ld.get_full_path))))
      = some da := by
  have hslash : ("/" : String).data = ['/'] := rfl
  have hdot : ("." : String).data = ['.'] := rfl
  have hdata : (da.get_full_path
      (some (dO.get_full_path (ln.get_full_path ld.get_full_path)))).data
      = ld.name.data ++ '/' :: (ln.name.data ++ '.' :: (dO.name.data ++ '.' :: da.name.data)) := by
    simp [Tree.DataAttribute.get_full_path, Tree.DataObject.get_full_path,
      Tree.LogicalNode.get_full_path, Tree.LogicalDevice.get_full_path,
      String.data_append, hslash, hdot]
  have s1 : splitOnce '/'
      (da.get_full_path (some (dO.get_full_path (ln.get_full_path ld.get_full_path))))
      = some (ld.name, ⟨ln.name.data ++ '.' :: (dO.name.data ++ '.' :: da.name.data)⟩) := by
    rw [String.ext hdata]
    exact splitOnce_mk '/' ld.name.data _ h1
  have s2 : splitOnce '.'
      (⟨ln.name.data ++ '.' :: (dO.name.data ++ '.' :: da.name.data)⟩ : String)
      = some (ln.name, ⟨dO.name.data ++ '.' :: da.name.data⟩) :=
    splitOnce_mk '.' ln.name.data _ h2
  have s3 : splitOnce '.' (⟨dO.name.data ++ '.' :: da.name.data⟩ : String)
      = some (dO.name, da.name) :=
    splitOnce_mk '.' dO.name.data _ h3
  simp only [Tree.IecServer.get_attribute_by_path, s1, s2, s3, hld, hln, hdo, hda]

/-- Witness for C3's amended statement: the demo's `phsA` attribute is
recovered from its own full path on the demo server. -/
theorem C3_roundtrip_witness :
    build_mock_server.get_attribute_by_path
      (demoDaA.get_full_path
        (some (demoPhV.get_full_path
          (demoMMXU1.get_full_path demoProtection.get_full_path))))
      = some demoDaA :=
  C3_roundtrip build_mock_server demoProtection demoMMXU1 demoPhV demoDaA
    (by decide) (by decide) (by decide) (by decide) (by decide) (by decide) (by decide)

/-- Claim C4 amended: the lookup returns an attribute only when the path
parses into its four segments and every dictionary lookup along the
chain succeeds — it never returns a partial or default attribute; every
malformed or partially-missing path yields `None` (the caught exception
is printed, not surfaced as a `PathNotFoundError`). -/
theorem C4_resolution (srv : Tree.IecServer) (p : String) (da : Tree.DataAttribute)
    (h : srv.get_attribute_by_path p = some da) :
    ∃ ldName rest lnName rest2 doName daName ld ln dO,
      splitOnce '/' p = some (ldName, rest)
      ∧ splitOnce '.' rest = some (lnName, rest2)
      ∧ splitOnce '.' rest2 = some (doName, daName)
      ∧ dictGet srv.devices ldName = some ld
      ∧ dictGet ld.nodes lnName = some ln
      ∧ dictGet ln.objects doName = some dO
      ∧ dictGet dO.attributes daName = some da := by
  unfold Tree.IecServer.get_attribute_by_path at h
  cases e1 : splitOnce '/' p with
  | none => simp [e1] at h
  | some pr =>
      obtain ⟨ldName, rest⟩ := pr
      simp only [e1] at h
      cases e2 : splitOnce '.' rest with
      | none => simp [e2] at h
      | some pr2 =>
          obtain ⟨lnName, rest2⟩ := pr2
          simp only [e2] at h
          cases e3 : splitOnce '.' rest2 with
          | none => simp [e3] at h
          | some pr3 =>
              obtain ⟨doName, daName⟩ := pr3
              simp only [e3] at h
              cases e4 : dictGet srv.devices ldName with
              | none => simp [e4] at h
              | some ld =>
                  simp only [e4] at h
                  cases e5 : dictGet ld.nodes lnName with
                  | none => simp [e5] at h
                  | some ln =>
                      simp only [e5] at h
                      cases e6 : dictGet ln.objects doName with
                      | none => simp [e6] at h
                      | some dO =>
                          simp only [e6] at h
                          exact ⟨ldName, rest, lnName, rest2, doName, daName, ld, ln, dO,
                            rfl, e2, e3, e4, e5, e6, h⟩

/-- Witness for C4's amended statement: the successful demo lookup
factors through the full parse-and-lookup chain. -/
theorem C4_resolution_witness :
    ∃ ldName rest lnName rest2 doName daName ld ln dO,
      splitOnce '/' "Protection/MMXU1.PhV.phsA.cVal.mag.f" = some (ldName, rest)
      ∧ splitOnce '.' rest = some (lnName, rest2)
      ∧ splitOnce '.' rest2 = some (doName, daName)
      ∧ dictGet build_mock_server.devices ldName = some ld
      ∧ dictGet ld.nodes lnName = some ln
      ∧ dictGet ln.objects doName = some dO
      ∧ dictGet dO.attributes daName = some demoDaA :=
  C4_resolution build_mock_server "Protection/MMXU1.PhV.phsA.cVal.mag.f" demoDaA (by decide)


/-- The `value` setter rewritten as mutation plus callback cascade when
the new value differs from the current one. -/
theorem set_value_eq (st : Rt.St) (i : Nat) (a : Rt.DataAttribute) (v : Value) (now : Nat)
    (ha : st.attrs[i]? = some a) (hv : ¬(a.value = v)) :
    Rt.set_value st i v now
      = (Rt.write_state st i a v now,
         (Rt.runCallbacks (Rt.write_state st i a v now) i a.trigger_callbacks).1,
         (Rt.runCallbacks (Rt.write_state st i a v now) i a.trigger_callbacks).2) := by
  unfold Rt.set_value Rt.write_state
  rw [ha]
  simp [hv]

/-- Lemma: `enable` rewritten as an explicit record update when the block
exists. -/
theorem enable_eq (st : Rt.St) (r : Nat) (rcb : Rt.ReportControlBlock)
    (sink : Rt.SinkBehavior) (h : st.rcbs[r]? = some rcb) :
    Rt.enable st r sink
      = { st with rcbs :=
            (st.rcbs.set r { rcb with client_callback := some sink, enabled := true }) } := by
  unfold Rt.enable
  rw [h]

/-- Lemma: `disable` rewritten as an explicit record update when the block
exists. -/
theorem disable_eq (st : Rt.St) (r : Nat) (rcb : Rt.ReportControlBlock)
    (h : st.rcbs[r]? = some rcb) :
    Rt.disable st r
      = { st with rcbs := (st.rcbs.set r { rcb with enabled := false }) } := by
  unfold Rt.disable
  rw [h]

/-- Claim C6: after enabling and then disabling a report control block
(disabling modelled from the spec as clearing the `enabled` flag the
code consults), a write of a new value to a dataset member produces zero
sink calls by that block, even though its subscriptions stay wired;
re-enabling it and writing one more new value produces exactly one sink
call by it. -/
theorem C6_disable_enable (st : Rt.St) (r : Nat) (rcb : Rt.ReportControlBlock)
    (sink1 : Rt.SinkBehavior) (i : Nat) (a : Rt.DataAttribute)
    (v1 v2 : Value) (now1 now2 : Nat)
    (hr : st.rcbs[r]? = some rcb)
    (ha : st.attrs[i]? = some a)
    (hcount : a.trigger_callbacks.count r = 1)
    (hnr : ∀ x ∈ st.rcbs, x.client_callback ≠ some Rt.SinkBehavior.raises)
    (hv1 : ¬(a.value = v1)) (hv12 : ¬(v1 = v2)) :
    Rt.sinkCallsOf r (Rt.set_value (Rt.disable (Rt.enable st r sink1) r) i v1 now1).2.1 = []
    ∧ (Rt.sinkCallsOf r
        (Rt.set_value
          (Rt.enable (Rt.set_value (Rt.disable (Rt.enable st r sink1) r) i v1 now1).1
            r Rt.SinkBehavior.normal)
          i v2 now2).2.1).length = 1 := by
  have hrlen : r < st.rcbs.length := (List.getElem?_eq_some.mp hr).1
  have halen : i < st.attrs.length := (List.getElem?_eq_some.mp ha).1
  have hen : Rt.enable st r sink1
      = { st with rcbs :=
            (st.rcbs.set r { rcb with client_callback := some sink1, enabled := true }) } :=
    enable_eq st r rcb sink1 hr
  have hget0 : (Rt.enable st r sink1).rcbs[r]?
      = some { rcb with client_callback := some sink1, enabled := true } := by
    rw [hen]
    exact List.getElem?_set_self (by simpa using hrlen)
  have hdis : Rt.disable (Rt.enable st r sink1) r
      = { st with rcbs :=
            (st.rcbs.set r { rcb with client_callback := some sink1, enabled := false }) } := by
    rw [disable_eq _ r _ hget0, hen]
    simp [List.set_set]
  have ha1 : (Rt.disable (Rt.enable st r sink1) r).attrs[i]? = some a := by
    rw [hdis]
    exact ha
  have hw1 : Rt.set_value (Rt.disable (Rt.enable st r sink1) r) i v1 now1
      = (Rt.write_state (Rt.disable (Rt.enable st r sink1) r) i a v1 now1,
         (Rt.runCallbacks (Rt.write_state (Rt.disable (Rt.enable st r sink1) r) i a v1 now1)
            i a.trigger_callbacks).1,
         (Rt.runCallbacks (Rt.write_state (Rt.disable (Rt.enable st r sink1) r) i a v1 now1)
            i a.trigger_callbacks).2) :=
    set_value_eq _ i a v1 now1 ha1 hv1
  have hrcbD : (Rt.write_state (Rt.disable (Rt.enable st r sink1) r) i a v1 now1).rcbs[r]?
      = some { rcb with client_callback := some sink1, enabled := false } := by
    show (Rt.disable (Rt.enable st r sink1) r).rcbs[r]? = _
    rw [hdis]
    exact List.getElem?_set_self (by simpa using hrlen)
  constructor
  · rw [hw1]
    exact sinkCallsOf_runCallbacks_disabled _ i r _ hrcbD rfl a.trigger_callbacks
  · have hattrs1 : (Rt.set_value (Rt.disable (Rt.enable st r sink1) r) i v1 now1).1.attrs
        = (st.attrs.set i { a with value := v1, timestamp := now1 }) := by
      rw [hw1]
      show ((Rt.disable (Rt.enable st r sink1) r).attrs.set i
        { a with value := v1, timestamp := now1 }) = _
      rw [hdis]
    have hget1 : (Rt.set_value (Rt.disable (Rt.enable st r sink1) r) i v1 now1).1.rcbs[r]?
        = some { rcb with client_callback := some sink1, enabled := false } := by
      rw [hw1]
      exact hrcbD
    have hrcbs1 : (Rt.set_value (Rt.disable (Rt.enable st r sink1) r) i v1 now1).1.rcbs
        = (st.rcbs.set r { rcb with client_callback := some sink1, enabled := false }) := by
      rw [hw1]
      show (Rt.disable (Rt.enable st r sink1) r).rcbs = _
      rw [hdis]
    have hen2 : Rt.enable (Rt.set_value (Rt.disable (Rt.enable st r sink1) r) i v1 now1).1
          r Rt.SinkBehavior.normal
        = { (Rt.set_value (Rt.disable (Rt.enable st r sink1) r) i v1 now1).1 with
            rcbs :=
              ((Rt.set_value (Rt.disable (Rt.enable st r sink1) r) i v1 now1).1.rcbs.set r
                { rcb with client_callback := some Rt.SinkBehavior.normal,
                           enabled := true }) } := by
      have h2 := enable_eq (Rt.set_value (Rt.disable (Rt.enable st r sink1) r) i v1 now1).1
        r { rcb with client_callback := some sink1, enabled := false }
        Rt.SinkBehavior.normal hget1
      exact h2
    have hare : (Rt.enable (Rt.set_value (Rt.disable (Rt.enable st r sink1) r) i v1 now1).1
          r Rt.SinkBehavior.normal).attrs[i]?
        = some { a with value := v1, timestamp := now1 } := by
      rw [hen2]
      show (Rt.set_value (Rt.disable (Rt.enable st r sink1) r) i v1 now1).1.attrs[i]? = _
      rw [hattrs1]
      exact List.getElem?_set_self (by simpa using halen)
    have hrcbs2 : (Rt.enable (Rt.set_value (Rt.disable (Rt.enable st r sink1) r) i v1 now1).1
          r Rt.SinkBehavior.normal).rcbs
        = (st.rcbs.set r
            { rcb with client_callback := some Rt.SinkBehavior.normal, enabled := true }) := by
      rw [hen2]
      show ((Rt.set_value (Rt.disable (Rt.enable st r sink1) r) i v1 now1).1.rcbs.set r
        { rcb with client_callback := some Rt.SinkBehavior.normal, enabled := true }) = _
      rw [hrcbs1, List.set_set]
    have hv2' : ¬(({ a with value := v1, timestamp := now1 } : Rt.DataAttribute).value = v2) := by
      simpa using hv12
    have hw2 : Rt.set_value (Rt.enable
          (Rt.set_value (Rt.disable (Rt.enable st r sink1) r) i v1 now1).1
          r Rt.SinkBehavior.normal) i v2 now2
        = (Rt.write_state (Rt.enable
              (Rt.set_value (Rt.disable (Rt.enable st r sink1) r) i v1 now1).1
              r Rt.SinkBehavior.normal) i { a with value := v1, timestamp := now1 } v2 now2,
           (Rt.runCallbacks (Rt.write_state (Rt.enable
              (Rt.set_value (Rt.disable (Rt.enable st r sink1) r) i v1 now1).1
              r Rt.SinkBehavior.normal) i { a with value := v1, timestamp := now1 } v2 now2)
              i a.trigger_callbacks).1,
           (Rt.runCallbacks (Rt.write_state (Rt.enable
              (Rt.set_value (Rt.disable (Rt.enable st r sink1) r) i v1 now1).1
              r Rt.SinkBehavior.normal) i { a with value := v1, timestamp := now1 } v2 now2)
              i a.trigger_callbacks).2) :=
      set_value_eq _ i { a with value := v1, timestamp := now1 } v2 now2 hare hv2'
    have hgetN : (Rt.write_state (Rt.enable
          (Rt.set_value (Rt.disable (Rt.enable st r sink1) r) i v1 now1).1
          r Rt.SinkBehavior.normal) i { a with value := v1, timestamp := now1 } v2 now2).rcbs[r]?
        = some { rcb with client_callback := some Rt.SinkBehavior.normal, enabled := true } := by
      show (Rt.enable (Rt.set_value (Rt.disable (Rt.enable st r sink1) r) i v1 now1).1
          r Rt.SinkBehavior.normal).rcbs[r]? = _
      rw [hrcbs2]
      exact List.getElem?_set_self (by simpa using hrlen)
    have hnr2 : ∀ c ∈ a.trigger_callbacks,
        (Rt.on_data_change (Rt.write_state (Rt.enable
            (Rt.set_value (Rt.disable (Rt.enable st r sink1) r) i v1 now1).1
            r Rt.SinkBehavior.normal) i { a with value := v1, timestamp := now1 } v2 now2)
          c i).2 = false := by
      intro c _
      apply on_data_change_no_raise
      intro x hx
      have hrweq : (Rt.write_state (Rt.enable
          (Rt.set_value (Rt.disable (Rt.enable st r sink1) r) i v1 now1).1
          r Rt.SinkBehavior.normal) i { a with value := v1, timestamp := now1 } v2 now2).rcbs
          = (st.rcbs.set r
            { rcb with client_callback := some Rt.SinkBehavior.normal, enabled := true }) := by
        show (Rt.enable (Rt.set_value (Rt.disable (Rt.enable st r sink1) r) i v1 now1).1
            r Rt.SinkBehavior.normal).rcbs = _
        exact hrcbs2
      rw [hrweq] at hx
      rcases List.mem_or_eq_of_mem_set hx with hx' | rfl
      · exact hnr x hx'
      · simp
    rw [hw2]
    rw [sinkCallsOf_runCallbacks_count _ i r _ hgetN rfl Rt.SinkBehavior.normal rfl
      a.trigger_callbacks hnr2]
    rw [List.length_replicate, hcount]

/-- Witness for C6 on the demo block: enable, disable, write `225.5` —
no report; re-enable, write `230.0` — exactly one report. -/
theorem C6_disable_enable_witness :
    Rt.sinkCallsOf 0 (Rt.set_value (Rt.disable (Rt.enable demoSt 0 Rt.SinkBehavior.normal) 0)
        0 (Value.num q225_5) 1).2.1 = []
    ∧ (Rt.sinkCallsOf 0
        (Rt.set_value
          (Rt.enable (Rt.set_value (Rt.disable (Rt.enable demoSt 0 Rt.SinkBehavior.normal) 0)
              0 (Value.num q225_5) 1).1
            0 Rt.SinkBehavior.normal)
          0 (Value.num 230) 2).2.1).length = 1 :=
  C6_disable_enable demoSt 0 ⟨"urcb01", "MyIED/Protection/MMXU1$RP$urcb01", [0, 1], false, none⟩
    Rt.SinkBehavior.normal 0
    ⟨"phsA.cVal.mag.f", some demoPhVPath, Value.num 220, 0, "good", [0]⟩
    (Value.num q225_5) (Value.num 230) 1 2
    (by decide) (by decide) (by decide) (by decide) (by decide) (by decide)

/-- The subscription fold of `ReportControlBlock.__init__` appends the
new block index to an attribute's callback list once per occurrence of
that attribute in the dataset, and changes nothing else about it. -/
theorem foldl_registerOne (rId : Nat) (ds : List Nat) :
    ∀ (as : List Rt.DataAttribute) (i : Nat) (a : Rt.DataAttribute), as[i]? = some a →
      (ds.foldl (Rt.registerOne rId) as)[i]?
        = some { a with trigger_callbacks :=
            a.trigger_callbacks ++ List.replicate (ds.count i) rId } := by
  induction ds with
  | nil =>
      intro as i a h
      simpa using h
  | cons d rest ih =>
      intro as i a h
      rw [List.foldl_cons]
      rcases eq_or_ne d i with rfl | hne
      · have hlen : d < as.length := (List.getElem?_eq_some.mp h).1
        have hreg : Rt.registerOne rId as d
            = as.set d { a with trigger_callbacks := a.trigger_callbacks ++ [rId] } := by
          unfold Rt.registerOne
          rw [h]
        have hget : (Rt.registerOne rId as d)[d]?
            = some { a with trigger_callbacks := a.trigger_callbacks ++ [rId] } := by
          rw [hreg]
          exact List.getElem?_set_self (by simpa using hlen)
        rw [ih _ d _ hget]
        simp [List.count_cons_self, List.replicate_succ, List.append_assoc]
      · have hget : (Rt.registerOne rId as d)[i]? = some a := by
          unfold Rt.registerOne
          cases hd : as[d]? with
          | none => exact h
          | some x => rw [List.getElem?_set_ne hne]; exact h
        rw [ih _ i _ hget, List.count_cons_of_ne (Ne.symm hne)]

/-- Claim C10: when the dataset bound to a new report control block
mentions the same attribute `k` times, construction registers the block
`k` times on that attribute, and — once the block is enabled — a single
change of that attribute makes the sink fire `k` times, each time with
the identical full dataset snapshot (not exactly once). -/
theorem C10_duplicate_members (st : Rt.St) (nm rpt_id : String) (dataset : List Nat)
    (i : Nat) (a : Rt.DataAttribute) (v : Value) (now : Nat)
    (ha : st.attrs[i]? = some a)
    (hfresh : st.rcbs.length ∉ a.trigger_callbacks)
    (hnr : ∀ x ∈ st.rcbs, x.client_callback ≠ some Rt.SinkBehavior.raises)
    (hv : ¬(a.value = v)) :
    (Rt.create_report st nm rpt_id dataset).attrs[i]?
        = some { a with trigger_callbacks :=
            a.trigger_callbacks ++ List.replicate (dataset.count i) st.rcbs.length }
    ∧ (a.trigger_callbacks
        ++ List.replicate (dataset.count i) st.rcbs.length).count st.rcbs.length
        = dataset.count i
    ∧ Rt.sinkCallsOf st.rcbs.length
        (Rt.set_value (Rt.enable (Rt.create_report st nm rpt_id dataset) st.rcbs.length
            Rt.SinkBehavior.normal) i v now).2.1
      = List.replicate (dataset.count i)
          (Rt.Event.sink st.rcbs.length rpt_id
            (Rt.snapshot (Rt.set_value (Rt.enable (Rt.create_report st nm rpt_id dataset)
                st.rcbs.length Rt.SinkBehavior.normal) i v now).1 dataset)
            "dchg") := by
  have hc1 : (Rt.create_report st nm rpt_id dataset).attrs[i]?
      = some { a with trigger_callbacks :=
          a.trigger_callbacks ++ List.replicate (dataset.count i) st.rcbs.length } := by
    show (dataset.foldl (Rt.registerOne st.rcbs.length) st.attrs)[i]? = _
    exact foldl_registerOne st.rcbs.length dataset st.attrs i a ha
  have hcnt : (a.trigger_callbacks
      ++ List.replicate (dataset.count i) st.rcbs.length).count st.rcbs.length
      = dataset.count i := by
    rw [List.count_append, List.count_replicate_self, List.count_eq_zero.mpr hfresh]
    simp
  have hrcbs0 : (Rt.create_report st nm rpt_id dataset).rcbs
      = st.rcbs ++ [⟨nm, rpt_id, dataset, false, none⟩] := rfl
  have hget0 : (Rt.create_report st nm rpt_id dataset).rcbs[st.rcbs.length]?
      = some ⟨nm, rpt_id, dataset, false, none⟩ := by
    rw [hrcbs0]
    exact List.getElem?_concat_length _ _
  have hen := enable_eq (Rt.create_report st nm rpt_id dataset) st.rcbs.length
    ⟨nm, rpt_id, dataset, false, none⟩ Rt.SinkBehavior.normal hget0
  have ha2 : (Rt.enable (Rt.create_report st nm rpt_id dataset) st.rcbs.length
      Rt.SinkBehavior.normal).attrs[i]?
      = some { a with trigger_callbacks :=
          a.trigger_callbacks ++ List.replicate (dataset.count i) st.rcbs.length } := by
    rw [hen]
    exact hc1
  have hveq : ¬(({ a with trigger_callbacks :=
      a.trigger_callbacks ++ List.replicate (dataset.count i) st.rcbs.length } :
        Rt.DataAttribute).value = v) := by
    simpa using hv
  have hw := set_value_eq (Rt.enable (Rt.create_report st nm rpt_id dataset) st.rcbs.length
      Rt.SinkBehavior.normal) i
    { a with trigger_callbacks :=
        a.trigger_callbacks ++ List.replicate (dataset.count i) st.rcbs.length } v now ha2 hveq
  have hrcbsW : (Rt.write_state (Rt.enable (Rt.create_report st nm rpt_id dataset)
      st.rcbs.length Rt.SinkBehavior.normal) i
      { a with
          trigger_callbacks :=
            a.trigger_callbacks ++ List.replicate (dataset.count i) st.rcbs.length }
          v now).rcbs
      = ((st.rcbs ++ [(⟨nm, rpt_id, dataset, false, none⟩ : Rt.ReportControlBlock)]).set
          st.rcbs.length
          (⟨nm, rpt_id, dataset, true, some Rt.SinkBehavior.normal⟩ :
            Rt.ReportControlBlock)) := by
    show (Rt.enable (Rt.create_report st nm rpt_id dataset) st.rcbs.length
        Rt.SinkBehavior.normal).rcbs = _
    rw [hen, hrcbs0]
  have hgetN : (Rt.write_state (Rt.enable (Rt.create_report st nm rpt_id dataset)
      st.rcbs.length Rt.SinkBehavior.normal) i
      { a with
          trigger_callbacks :=
            a.trigger_callbacks ++ List.replicate (dataset.count i) st.rcbs.length }
          v now).rcbs[st.rcbs.length]?
      = some (⟨nm, rpt_id, dataset, true, some Rt.SinkBehavior.normal⟩ :
          Rt.ReportControlBlock) := by
    rw [hrcbsW]
    exact List.getElem?_set_self (by simp)
  have hnr2 : ∀ c ∈ (a.trigger_callbacks
      ++ List.replicate (dataset.count i) st.rcbs.length),
      (Rt.on_data_change (Rt.write_state (Rt.enable (Rt.create_report st nm rpt_id dataset)
          st.rcbs.length Rt.SinkBehavior.normal) i
          { a with
              trigger_callbacks :=
                a.trigger_callbacks ++ List.replicate (dataset.count i) st.rcbs.length }
              v now) c i).2 = false := by
    intro c _
    apply on_data_change_no_raise
    intro x hx
    rw [hrcbsW] at hx
    rcases List.mem_or_eq_of_mem_set hx with hx' | rfl
    · rcases List.mem_append.mp hx' with h1 | h2
      · exact hnr x h1
      · rw [List.mem_singleton] at h2
        subst h2
        simp
    · simp
  refine ⟨hc1, hcnt, ?_⟩
  rw [hw]
  have hfin := sinkCallsOf_runCallbacks_count
    (Rt.write_state (Rt.enable (Rt.create_report st nm rpt_id dataset)
      st.rcbs.length Rt.SinkBehavior.normal) i
      { a with
          trigger_callbacks :=
            a.trigger_callbacks ++ List.replicate (dataset.count i) st.rcbs.length }
          v now)
    i st.rcbs.length ⟨nm, rpt_id, dataset, true, some Rt.SinkBehavior.normal⟩
    hgetN rfl Rt.SinkBehavior.normal rfl
    (a.trigger_callbacks ++ List.replicate (dataset.count i) st.rcbs.length) hnr2
  rw [hfin, hcnt]

/-- Witness for C10: one attribute listed twice in the dataset — the
block is registered twice, and one change delivers two identical
full-snapshot reports. -/
theorem C10_duplicate_members_witness :
    (Rt.create_report c10St "urcb" "rptX" [0, 0]).attrs[0]?
        = some { (⟨"a", none, Value.num 0, 0, "good", []⟩ : Rt.DataAttribute) with
            trigger_callbacks :=
              (⟨"a", none, Value.num 0, 0, "good", []⟩ : Rt.DataAttribute).trigger_callbacks
                ++ List.replicate (([0, 0] : List Nat).count 0) c10St.rcbs.length }
    ∧ ((⟨"a", none, Value.num 0, 0, "good", []⟩ : Rt.DataAttribute).trigger_callbacks
        ++ List.replicate (([0, 0] : List Nat).count 0) c10St.rcbs.length).count
          c10St.rcbs.length = ([0, 0] : List Nat).count 0
    ∧ Rt.sinkCallsOf c10St.rcbs.length
        (Rt.set_value (Rt.enable (Rt.create_report c10St "urcb" "rptX" [0, 0])
            c10St.rcbs.length Rt.SinkBehavior.normal) 0 (Value.num 1) 9).2.1
      = List.replicate (([0, 0] : List Nat).count 0)
          (Rt.Event.sink c10St.rcbs.length "rptX"
            (Rt.snapshot (Rt.set_value (Rt.enable (Rt.create_report c10St "urcb" "rptX" [0, 0])
                c10St.rcbs.length Rt.SinkBehavior.normal) 0 (Value.num 1) 9).1 [0, 0])
            "dchg") :=
  C10_duplicate_members c10St "urcb" "rptX" [0, 0] 0 ⟨"a", none, Value.num 0, 0, "good", []⟩
    (Value.num 1) 9 (by decide) (by decide) (by decide) (by decide)
